import Mathlib

/-!
Verification of the `User` client in `src/b2cusers.py` of the repository
epiecs/azure-graph-scripts.

Python dictionaries are modelled as insertion-ordered association lists with
unique keys: the assignment `d[k] = v` is `dinsert` (it replaces the value in
place when the key exists and appends otherwise, exactly like a Python dict),
lookup `d[k]` / `d.get(k)` is `alookup`, and `d.pop(k, default)` is `dremove`.
HTTP traffic is modelled by response oracles, and each operation reports the
requests it issues, so that "fails before any network call" is the statement
that the issued-request list is empty.
-/

/-- A Python/JSON value as it appears in user records and request payloads. -/
inductive Value : Type where
  | vNull : Value
  | vBool : Bool → Value
  | vStr : String → Value
  | vInt : Int → Value
  | vArr : List Value → Value
  | vObj : List (String × Value) → Value

/-- A user record / JSON object: an insertion-ordered list of fields. -/
abbrev UserRecord := List (String × Value)

/-- Dictionary lookup: the value of the first field named `k`. -/
def alookup {α : Type} (k : String) : List (String × α) → Option α
  | [] => none
  | p :: rest => if p.1 = k then some p.2 else alookup k rest

/-- Python `k in d`. -/
def hasKey {α : Type} (k : String) (m : List (String × α)) : Bool :=
  (alookup k m).isSome

/-- Python `d.keys()` (in insertion order). -/
def keysOf {α : Type} (m : List (String × α)) : List String :=
  m.map Prod.fst

/-- Python `d.values()` (in insertion order). -/
def valsOf {α : Type} (m : List (String × α)) : List α :=
  m.map Prod.snd

/-- Python `d[k] = v`: replace in place when the key exists, append otherwise. -/
def dinsert {α : Type} (m : List (String × α)) (k : String) (v : α) :
    List (String × α) :=
  if hasKey k m then m.map (fun p => if p.1 = k then (k, v) else p)
  else m ++ [(k, v)]

/-- Python `d.pop(k, default)`: remove every field named `k`. -/
def dremove {α : Type} (m : List (String × α)) (k : String) :
    List (String × α) :=
  m.filter (fun p => !(p.1 == k))

/-- Python `str.lower()` (character-wise lowering). -/
def strToLower (s : String) : String := String.mk (s.data.map Char.toLower)

theorem alookup_append_of_none {α : Type} (k : String)
    (m1 m2 : List (String × α)) (h : alookup k m1 = none) :
    alookup k (m1 ++ m2) = alookup k m2 := by
  induction m1 with
  | nil => rfl
  | cons p rest ih =>
    by_cases hp : p.1 = k
    · simp [alookup, hp] at h
    · simp [alookup, hp] at h ⊢
      exact ih h

theorem alookup_append_of_some {α : Type} (k : String)
    (m1 m2 : List (String × α)) (v : α) (h : alookup k m1 = some v) :
    alookup k (m1 ++ m2) = some v := by
  induction m1 with
  | nil => simp [alookup] at h
  | cons p rest ih =>
    by_cases hp : p.1 = k
    · simp [alookup, hp] at h ⊢
      exact h
    · simp [alookup, hp] at h ⊢
      exact ih h

theorem alookup_map_replace {α : Type} (k : String) (v : α)
    (m : List (String × α)) :
    alookup k (m.map (fun p => if p.1 = k then (k, v) else p)) =
      (alookup k m).map (fun _ => v) := by
  induction m with
  | nil => rfl
  | cons p rest ih =>
    by_cases hp : p.1 = k
    · simp [alookup, hp]
    · simp [alookup, hp, ih]

theorem alookup_map_replace_ne {α : Type} (k q : String) (v : α)
    (m : List (String × α)) (h : q ≠ k) :
    alookup q (m.map (fun p => if p.1 = k then (k, v) else p)) =
      alookup q m := by
  induction m with
  | nil => rfl
  | cons p rest ih =>
    by_cases hp : p.1 = k
    · have : k ≠ q := fun hkq => h hkq.symm
      simp [alookup, hp, this, ih]
    · simp [alookup, hp, ih]

/-- Looking up the key just assigned yields the assigned value. -/
theorem alookup_dinsert_self {α : Type} (m : List (String × α))
    (k : String) (v : α) : alookup k (dinsert m k v) = some v := by
  unfold dinsert
  by_cases h : hasKey k m
  · rw [if_pos h, alookup_map_replace]
    unfold hasKey at h
    obtain ⟨w, hw⟩ := Option.isSome_iff_exists.mp h
    simp [hw]
  · rw [if_neg h]
    unfold hasKey at h
    have hn : alookup k m = none := by
      cases hx : alookup k m with
      | none => rfl
      | some w => simp [hx] at h
    rw [alookup_append_of_none k m _ hn]
    simp [alookup]

/-- Assigning one key leaves the other keys unchanged. -/
theorem alookup_dinsert_ne {α : Type} (m : List (String × α))
    (k q : String) (v : α) (h : q ≠ k) :
    alookup q (dinsert m k v) = alookup q m := by
  unfold dinsert
  by_cases hm : hasKey k m
  · rw [if_pos hm, alookup_map_replace_ne k q v m h]
  · rw [if_neg hm]
    cases hx : alookup q m with
    | some w => rw [alookup_append_of_some q m _ w hx]
    | none =>
      rw [alookup_append_of_none q m _ hx]
      have hkq : ¬k = q := fun he => h he.symm
      simp [alookup, hkq]

theorem hasKey_dinsert {α : Type} (m : List (String × α)) (k q : String)
    (v : α) : hasKey q (dinsert m k v) = true ↔ q = k ∨ hasKey q m = true := by
  by_cases h : q = k
  · subst h
    simp [hasKey, alookup_dinsert_self]
  · simp [hasKey, alookup_dinsert_ne m k q v h, h]

theorem dinsert_of_not_hasKey {α : Type} (m : List (String × α))
    (k : String) (v : α) (h : hasKey k m = false) :
    dinsert m k v = m ++ [(k, v)] := by
  unfold dinsert
  rw [if_neg]
  simp [h]

theorem alookup_dremove_self {α : Type} (m : List (String × α)) (u : String) :
    alookup u (dremove m u) = none := by
  induction m with
  | nil => rfl
  | cons p rest ih =>
    simp only [dremove, List.filter_cons] at ih ⊢
    by_cases hp : p.1 = u
    · simp [hp, ih]
    · simp [hp, alookup, ih]

theorem alookup_dremove_ne {α : Type} (m : List (String × α)) (k u : String)
    (h : k ≠ u) : alookup k (dremove m u) = alookup k m := by
  induction m with
  | nil => rfl
  | cons p rest ih =>
    simp only [dremove, List.filter_cons] at ih ⊢
    have huk : ¬u = k := fun he => h he.symm
    by_cases hp : p.1 = u
    · have hpk : ¬p.1 = k := by rw [hp]; exact huk
      simp [hp, alookup, hpk, huk, ih]
    · by_cases hk : p.1 = k
      · simp [hp, alookup, hk, h, huk]
      · simp [hp, alookup, hk, h, huk, ih]

/-- Folding `dinsert` over keys not containing `k` preserves the lookup of `k`. -/
theorem foldl_dinsert_preserve {α β : Type} (f : α → String) (g : α → β)
    (l : List α) (acc : List (String × β)) (k : String)
    (hk : k ∉ l.map f) :
    alookup k (l.foldl (fun m x => dinsert m (f x) (g x)) acc) =
      alookup k acc := by
  induction l generalizing acc with
  | nil => rfl
  | cons x rest ih =>
    simp only [List.map_cons, List.mem_cons, not_or] at hk
    rw [List.foldl_cons, ih (dinsert acc (f x) (g x)) hk.2,
      alookup_dinsert_ne acc (f x) k (g x) hk.1]

/-- When the generated keys are pairwise distinct, folding `dinsert` makes
every element retrievable under its generated key. -/
theorem foldl_dinsert_found {α β : Type} (f : α → String) (g : α → β)
    (l : List α) (x : α) (acc : List (String × β))
    (hn : (l.map f).Nodup) (hx : x ∈ l) :
    alookup (f x) (l.foldl (fun m y => dinsert m (f y) (g y)) acc) =
      some (g x) := by
  induction l generalizing acc with
  | nil => cases hx
  | cons y rest ih =>
    rw [List.foldl_cons]
    rcases List.mem_cons.mp hx with h | h
    · subst h
      have hout : f x ∉ rest.map f := by
        simp only [List.map_cons, List.nodup_cons] at hn
        exact hn.1
      rw [foldl_dinsert_preserve f g rest _ (f x) hout,
        alookup_dinsert_self]
    · have hn2 : (rest.map f).Nodup := by
        simp only [List.map_cons, List.nodup_cons] at hn
        exact hn.2
      exact ih _ hn2 h

/-- When the generated keys are pairwise distinct and fresh with respect to the
accumulator, folding `dinsert` is plain appending. -/
theorem foldl_dinsert_fresh {α β : Type} (f : α → String) (g : α → β)
    (l : List α) (acc : List (String × β))
    (hn : (l.map f).Nodup)
    (hd : ∀ x ∈ l, alookup (f x) acc = none) :
    l.foldl (fun m y => dinsert m (f y) (g y)) acc =
      acc ++ l.map (fun x => (f x, g x)) := by
  induction l generalizing acc with
  | nil => simp
  | cons y rest ih =>
    rw [List.foldl_cons]
    have hfy : hasKey (f y) acc = false := by
      simp [hasKey, hd y (List.mem_cons_self y rest)]
    rw [dinsert_of_not_hasKey acc (f y) (g y) hfy]
    have hn2 : (rest.map f).Nodup := by
      simp only [List.map_cons, List.nodup_cons] at hn
      exact hn.2
    have hy : f y ∉ rest.map f := by
      simp only [List.map_cons, List.nodup_cons] at hn
      exact hn.1
    rw [ih (acc ++ [(f y, g y)]) hn2 ?_]
    · simp [List.append_assoc]
    · intro x hx
      rw [alookup_append_of_none (f x) acc _ (hd x (List.mem_cons_of_mem y hx))]
      have hxy : f x ≠ f y := by
        intro he
        exact hy (he ▸ List.mem_map_of_mem f hx)
      have hne : ¬f y = f x := fun he => hxy he.symm
      simp [alookup, hne]

/-! ## The `User` class of `src/b2cusers.py` -/

/-- Class-level attribute lists of `User` (b2cusers.py lines 5-22). -/
def base_user_attributes : List String :=
  ["id", "givenName", "surname", "jobTitle", "mail", "creationType",
   "identities", "accountEnabled"]

def extended_user_attributes : List String :=
  ["id", "ageGroup", "createdDateTime", "userType"]

def unwanted_attributes : List String :=
  ["emails", "jobTitle", "legalAgeGroupClassification", "newUser", "ObjectId"]

/-- One entry of the response of `GET /identity/userFlowAttributes`. -/
structure SchemaEntry where
  id : String
  displayName : String
  userFlowAttributeType : String
deriving DecidableEq

/-- One iteration of the schema loop in `User.__init__` (b2cusers.py lines
71-80): the state is the pair of `userflow_attribute_mapping` and the
class-level `custom_user_attributes` list. -/
def buildStep (st : List (String × String) × List String) (e : SchemaEntry) :
    List (String × String) × List String :=
  if e.userFlowAttributeType = "builtIn" then
    (dinsert st.1 e.id e.id, st.2)
  else
    (dinsert st.1 (strToLower e.displayName) e.id, st.2 ++ [e.id])

/-- The whole schema loop of `User.__init__`.  `customs0` is the content of
the class-level list `User.custom_user_attributes` before the constructor
runs (it is shared between instances, so a second construction starts from
the list the first one left behind); the mapping itself starts empty. -/
def buildMapping (schema : List SchemaEntry) (customs0 : List String) :
    List (String × String) × List String :=
  schema.foldl buildStep ([], customs0)

/-- The mapping key an entry generates: its `id` for builtIn entries, the
lower-cased `displayName` otherwise. -/
def mappingKey (e : SchemaEntry) : String :=
  if e.userFlowAttributeType = "builtIn" then e.id else strToLower e.displayName

/-- The ids the schema loop appends to `custom_user_attributes`: the ids of
the entries that are not builtIn, in order. -/
def customIds (schema : List SchemaEntry) : List String :=
  (schema.filter (fun e => !(e.userFlowAttributeType == "builtIn"))).map
    SchemaEntry.id

/-! ## `User.list` (b2cusers.py lines 133-208) -/

/-- One HTTP request issued by `User.list`: either `GET /users` with the
given `$top` value, or the `GET` of the n-th `@odata.nextLink`. -/
inductive Req where
  | usersPage : Int → Req
  | nextLink : Nat → Req
deriving DecidableEq

/-- Response oracle for `User.list`: `firstPage` answers the initial
`GET /users` of the `max == 0` branch, `morePages` the successive
continuation links (the link chain is finite and each response carries a
link exactly while pages remain), and `singlePage` answers the single
bounded request of the `max <= 999` branch with the raw response object:
that branch stores the whole `.json()` dict without extracting its `value`
field (b2cusers.py lines 180-187). -/
structure ListServer where
  firstPage : List UserRecord
  morePages : List (List UserRecord)
  singlePage : Int → UserRecord

/-- The validation loop of `User.list` (lines 151-156): the first entry of
`include_attributes` that is not a key of `userflow_attribute_mapping`. -/
def findBadAttr (mapping : List (String × String)) :
    List String → Option String
  | [] => none
  | a :: rest => if hasKey a mapping then findBadAttr mapping rest else some a

/-- The message of the `ValueError` raised by `User.list` (line 154). -/
def attrErrorMsg (bad : String) (mapping : List (String × String)) : String :=
  bad ++ " is not a known attribute. Only " ++
    String.intercalate "," (keysOf mapping) ++ " are allowed"

/-- `reversed_mapping = ` the value-to-key dict comprehension of line 193,
built with dict-assignment semantics (a later duplicate value overwrites). -/
def reversedMapping (mapping : List (String × String)) :
    List (String × String) :=
  mapping.foldl (fun acc p => dinsert acc p.2 p.1) []

/-- The key under which `User.list` returns a fetched field (lines 200-204):
custom extension attributes are sent through `reversed_mapping`, everything
else passes unchanged.  The schema loop guarantees that every id in
`custom_user_attributes` is a value of the mapping, hence a key of
`reversed_mapping`; the `getD` fallback is never reached then. -/
def remapKey (rev : List (String × String)) (customs : List String)
    (k : String) : String :=
  if k ∈ customs then (alookup k rev).getD k else k

/-- The per-record remap step of `User.list` (lines 196-206): a fresh dict is
filled field by field with the remapped keys. -/
def remapCustomer (rev : List (String × String)) (customs : List String)
    (c : UserRecord) : UserRecord :=
  c.foldl (fun acc kv => dinsert acc (remapKey rev customs kv.1) kv.2) []

/-- `User.list` (lines 133-208).  Returns the requests it issued together
with either the mapped customer list or the message of the exception it
raised.  The attribute check runs first; then `max == 0` pages through
everything (`$top` 999, following each continuation link, extracting each
response field `value`), `max <= 999` issues one bounded request, anything
above 999 raises.  The bounded branch never extracts `value`: it keeps the
raw response dict, so the remap loop of lines 196-206 iterates the dict
keys (strings) and `customer.items()` raises an AttributeError after the
request for any non-empty response; an empty response object makes the loop
body unreachable and yields the empty list. -/
def listUsers (mapping : List (String × String)) (customs : List String)
    (maxN : Int) (includeAttrs : List String) (srv : ListServer) :
    List Req × Except String (List UserRecord) :=
  match findBadAttr mapping includeAttrs with
  | some bad => ([], Except.error (attrErrorMsg bad mapping))
  | none =>
    if maxN = 0 then
      (Req.usersPage 999 :: (List.range srv.morePages.length).map Req.nextLink,
       Except.ok ((srv.firstPage ++ srv.morePages.flatten).map
         (remapCustomer (reversedMapping mapping) customs)))
    else if maxN ≤ 999 then
      ([Req.usersPage maxN],
       match srv.singlePage maxN with
       | [] => Except.ok []
       | _ :: _ =>
         Except.error "AttributeError: str object has no attribute items")
    else
      ([], Except.error "max value should be between 0 and 999")

/-! ## `User.profile` (b2cusers.py lines 210-274) -/

/-- The object-building loop of `User.profile` (lines 261-268): one entry per
mapping key, taking the value the server returned for the mapped id and
`None` when the server omitted the field. -/
def profileBase (mapping : List (String × String))
    (graphProfile : UserRecord) : UserRecord :=
  mapping.foldl
    (fun acc p => dinsert acc p.1 ((alookup p.2 graphProfile).getD Value.vNull))
    []

/-- `User.profile` after the GET: the built object with the unwanted
attributes popped (lines 270-272). -/
def profileUser (mapping : List (String × String))
    (graphProfile : UserRecord) : UserRecord :=
  unwanted_attributes.foldl (fun acc k => dremove acc k)
    (profileBase mapping graphProfile)

/-! ## `User.create` and `User.update` (b2cusers.py lines 276-367) -/

/-- The field-translation loop shared by `User.create` (lines 310-312) and
`User.update` (lines 359-361): every mapping key present in the input record
is copied to the payload under the mapped id; keys of the input that are not
mapping keys are never consulted.  The `getD` fallback is unreachable: the
value is only read when the key is present. -/
def mapKnownFields (mapping : List (String × String)) (user : UserRecord) :
    UserRecord :=
  mapping.foldl
    (fun acc p =>
      if hasKey p.1 user then dinsert acc p.2 ((alookup p.1 user).getD Value.vNull)
      else acc)
    []

/-- Python `str()` as used by the f-string on line 314; composite values do
not occur there for well-formed inputs and get a placeholder rendering. -/
def pyStr : Value → String
  | Value.vNull => "None"
  | Value.vBool true => "True"
  | Value.vBool false => "False"
  | Value.vStr s => s
  | Value.vInt n => toString n
  | Value.vArr _ => "<list>"
  | Value.vObj _ => "<dict>"

/-- The default display name of line 314: the f-string over
`user.get("givenName")` and `user.get("surname")`. -/
def defaultDisplayName (user : UserRecord) : String :=
  pyStr ((alookup "givenName" user).getD Value.vNull) ++ " " ++
    pyStr ((alookup "surname" user).getD Value.vNull)

/-- The field assignments of `User.create` (lines 310-328) once the email
value `ev` and password value `pv` have been read from the input. -/
def createPayloadFields (mapping : List (String × String))
    (tenantName : String) (user : UserRecord) (ev pv : Value) : UserRecord :=
  let m0 := mapKnownFields mapping user
  let m1 := dinsert m0 "displayName"
    ((alookup "displayName" user).getD (Value.vStr (defaultDisplayName user)))
  let m2 := dinsert m1 "mail" ev
  let m3 := dinsert m2 "accountEnabled" (Value.vBool true)
  let m4 := dinsert m3 "passwordPolicies" (Value.vStr "DisablePasswordExpiration")
  let m5 := dinsert m4 "passwordProfile" (Value.vObj
    [("password", pv),
     ("forceChangePasswordNextSignIn", Value.vBool false)])
  dinsert m5 "identities" (Value.vArr
    [Value.vObj
      [("issuer", Value.vStr tenantName),
       ("issuerAssignedId", ev),
       ("signInType", Value.vStr "emailAddress")]])

/-- The payload `User.create` posts (lines 310-328).  The subscripts
`user["email"]` (line 315, hit first) and `user["password"]` (line 319)
raise a KeyError before the POST when the key is missing; the error carries
the missing key like the Python exception does. -/
def createPayload (mapping : List (String × String)) (tenantName : String)
    (user : UserRecord) : Except String UserRecord :=
  match alookup "email" user with
  | none => Except.error "KeyError: email"
  | some ev =>
    match alookup "password" user with
    | none => Except.error "KeyError: password"
    | some pv =>
      Except.ok (createPayloadFields mapping tenantName user ev pv)

/-- `User.create` (lines 276-334): builds the payload and posts it (one HTTP
request, line 330); when the payload construction raises, the KeyError
propagates before any request is issued.  The first component counts the
requests issued. -/
def createUser (mapping : List (String × String)) (tenantName : String)
    (user : UserRecord) : Nat × Except String UserRecord :=
  match createPayload mapping tenantName user with
  | Except.error e => (0, Except.error e)
  | Except.ok payload => (1, Except.ok payload)

/-- The payload `User.update` patches (lines 357-361). -/
def updatePayload (mapping : List (String × String)) (user : UserRecord) :
    UserRecord :=
  mapKnownFields mapping user

/-- `User.update` (lines 336-367): builds the partial payload and
unconditionally patches it (one HTTP request, line 363). -/
def updateUser (mapping : List (String × String)) (userid : String)
    (user : UserRecord) : Nat × UserRecord :=
  (1, updatePayload mapping user)

/-- The keys `User.create` always sets after the translation loop. -/
def createFixedKeys : List String :=
  ["displayName", "mail", "accountEnabled", "passwordPolicies",
   "passwordProfile", "identities"]

/-! ## Facts about the schema loop -/

/-- The mapping component of the schema loop is a fold of `dinsert` over the
generated keys; the customs component never feeds back into it. -/
theorem buildStep_foldl_fst (schema : List SchemaEntry)
    (m0 : List (String × String)) (c0 : List String) :
    (schema.foldl buildStep (m0, c0)).1 =
      schema.foldl (fun m e => dinsert m (mappingKey e) e.id) m0 := by
  induction schema generalizing m0 c0 with
  | nil => rfl
  | cons e rest ih =>
    rw [List.foldl_cons, List.foldl_cons]
    by_cases h : e.userFlowAttributeType = "builtIn"
    · simp only [buildStep, mappingKey, if_pos h]
      exact ih _ _
    · simp only [buildStep, mappingKey, if_neg h]
      exact ih _ _

/-- The customs component of the schema loop: the initial shared list with the
ids of the non-builtIn entries appended, in order. -/
theorem buildStep_foldl_snd (schema : List SchemaEntry)
    (m0 : List (String × String)) (c0 : List String) :
    (schema.foldl buildStep (m0, c0)).2 = c0 ++ customIds schema := by
  induction schema generalizing m0 c0 with
  | nil => simp [customIds]
  | cons e rest ih =>
    rw [List.foldl_cons]
    by_cases h : e.userFlowAttributeType = "builtIn"
    · simp only [buildStep, if_pos h]
      rw [ih]
      simp [customIds, List.filter_cons, h]
    · simp only [buildStep, if_neg h]
      rw [ih]
      simp [customIds, List.filter_cons, h, List.append_assoc]

/-- A two-entry schema on which a later custom entry overwrites the mapping
key of an earlier builtIn entry: the builtIn id is `city` and the custom
display name lower-cases to `city` as well. -/
def c1Schema : List SchemaEntry :=
  [⟨"city", "City", "builtIn"⟩, ⟨"extension_1_City", "City", "custom"⟩]

/-- Claim C1 (counterexample): the claim fails as stated.  In `c1Schema` the
first entry is builtIn with id `city`, yet after the whole loop the mapping
sends `city` to the id of the later custom entry whose lower-cased display
name is also `city`, not to itself. -/
theorem c1_counterexample :
    (SchemaEntry.mk "city" "City" "builtIn") ∈ c1Schema ∧
    (SchemaEntry.mk "city" "City" "builtIn").userFlowAttributeType = "builtIn" ∧
    alookup "city" (buildMapping c1Schema []).1 = some "extension_1_City" ∧
    ¬alookup "city" (buildMapping c1Schema []).1 = some "city" := by
  decide

/-- Claim C1 (amended): provided the mapping keys the entries generate (the
id of a builtIn entry, the lower-cased display name of any other entry) are
pairwise distinct, every builtIn entry is identity-mapped, every other entry
is reachable under its lower-cased display name with the id as value and its
id is in the custom-attribute list; and the custom-attribute list is exactly
the ids of the non-builtIn entries, so a builtIn id is only ever in it when a
custom entry carries the same id. -/
theorem c1_amended (schema : List SchemaEntry) (e : SchemaEntry)
    (hn : (schema.map mappingKey).Nodup) (he : e ∈ schema) :
    (e.userFlowAttributeType = "builtIn" →
      alookup e.id (buildMapping schema []).1 = some e.id) ∧
    (¬e.userFlowAttributeType = "builtIn" →
      alookup (strToLower e.displayName) (buildMapping schema []).1 =
          some e.id ∧
      e.id ∈ (buildMapping schema []).2) ∧
    (buildMapping schema []).2 = customIds schema := by
  have hmap : alookup (mappingKey e) (buildMapping schema []).1 = some e.id := by
    rw [buildMapping, buildStep_foldl_fst]
    exact foldl_dinsert_found mappingKey SchemaEntry.id schema e [] hn he
  have hsnd : (buildMapping schema []).2 = customIds schema := by
    rw [buildMapping, buildStep_foldl_snd]
    simp
  refine ⟨?_, ?_, hsnd⟩
  · intro hb
    have hk : mappingKey e = e.id := by simp [mappingKey, hb]
    rwa [hk] at hmap
  · intro hb
    have hk : mappingKey e = strToLower e.displayName := by
      simp [mappingKey, hb]
    refine ⟨by rwa [hk] at hmap, ?_⟩
    rw [hsnd]
    refine List.mem_map_of_mem SchemaEntry.id ?_
    rw [List.mem_filter]
    exact ⟨he, by simp [hb]⟩

/-- A collision-free schema with one builtIn and one custom entry. -/
def c1wSchema : List SchemaEntry :=
  [⟨"city", "City", "builtIn"⟩, ⟨"extension_1_Nickname", "Nickname", "custom"⟩]

def c1wEntry : SchemaEntry := ⟨"extension_1_Nickname", "Nickname", "custom"⟩

/-- Claim C1 (witness): the amended statement evaluated on `c1wSchema` at its
custom entry. -/
theorem c1_amended_witness :
    (c1wSchema.map mappingKey).Nodup ∧ c1wEntry ∈ c1wSchema ∧
    ((c1wEntry.userFlowAttributeType = "builtIn" →
        alookup c1wEntry.id (buildMapping c1wSchema []).1 =
          some c1wEntry.id) ∧
     (¬c1wEntry.userFlowAttributeType = "builtIn" →
        alookup (strToLower c1wEntry.displayName) (buildMapping c1wSchema []).1 =
            some c1wEntry.id ∧
        c1wEntry.id ∈ (buildMapping c1wSchema []).2) ∧
     (buildMapping c1wSchema []).2 = customIds c1wSchema) :=
  ⟨by decide, by decide,
    c1_amended c1wSchema c1wEntry (by decide) (by decide)⟩

/-- Claim C9 (confirmed): `custom_user_attributes` is a class-level list the
constructor appends to without rebinding, so a second construction starts
from the list the first left behind.  With the shared list threaded through
two constructions over the same schema, an id discovered once per pass occurs
twice afterwards, and everything the first construction discovered is in the
list the second one observes. -/
theorem c9_shared_customs (schema : List SchemaEntry) (x : String)
    (h : (customIds schema).count x = 1) :
    (buildMapping schema (buildMapping schema []).2).2.count x = 2 ∧
    x ∈ (buildMapping schema (buildMapping schema []).2).2 ∧
    ∀ y ∈ (buildMapping schema []).2,
      y ∈ (buildMapping schema (buildMapping schema []).2).2 := by
  have h1 : (buildMapping schema []).2 = customIds schema := by
    rw [buildMapping, buildStep_foldl_snd]
    simp
  have h2 : (buildMapping schema (buildMapping schema []).2).2 =
      customIds schema ++ customIds schema := by
    rw [buildMapping, buildStep_foldl_snd, h1]
  have hx : x ∈ customIds schema := by
    by_contra hx
    rw [List.count_eq_zero_of_not_mem hx] at h
    simp at h
  refine ⟨?_, ?_, ?_⟩
  · rw [h2, List.count_append, h]
  · rw [h2]
    exact List.mem_append_left _ hx
  · intro y hy
    rw [h1] at hy
    rw [h2]
    exact List.mem_append_left _ hy

def c9Schema : List SchemaEntry :=
  [⟨"city", "City", "builtIn"⟩, ⟨"extension_1_Nickname", "Nickname", "custom"⟩]

/-- Claim C9 (witness): two constructions over `c9Schema` leave the custom id
twice in the shared list. -/
theorem c9_shared_customs_witness :
    (customIds c9Schema).count "extension_1_Nickname" = 1 ∧
    ((buildMapping c9Schema (buildMapping c9Schema []).2).2.count
        "extension_1_Nickname" = 2 ∧
     "extension_1_Nickname" ∈
        (buildMapping c9Schema (buildMapping c9Schema []).2).2 ∧
     ∀ y ∈ (buildMapping c9Schema []).2,
       y ∈ (buildMapping c9Schema (buildMapping c9Schema []).2).2) :=
  ⟨by decide, c9_shared_customs c9Schema "extension_1_Nickname" (by decide)⟩

/-! ## Facts about `User.list` -/

theorem findBadAttr_none (mapping : List (String × String))
    (attrs : List String) (h : ∀ a ∈ attrs, hasKey a mapping = true) :
    findBadAttr mapping attrs = none := by
  induction attrs with
  | nil => rfl
  | cons a rest ih =>
    simp only [findBadAttr]
    rw [if_pos (h a (List.mem_cons_self a rest))]
    exact ih fun b hb => h b (List.mem_cons_of_mem a hb)

theorem findBadAttr_some (mapping : List (String × String))
    (attrs : List String) (h : ∃ a, a ∈ attrs ∧ hasKey a mapping = false) :
    ∃ bad, findBadAttr mapping attrs = some bad ∧ bad ∈ attrs ∧
      hasKey bad mapping = false := by
  induction attrs with
  | nil =>
    obtain ⟨a, ha, _⟩ := h
    cases ha
  | cons a rest ih =>
    by_cases hk : hasKey a mapping = true
    · obtain ⟨b, hb, hbf⟩ := h
      rcases List.mem_cons.mp hb with he | hbr
      · rw [he] at hbf
        rw [hk] at hbf
        cases hbf
      · obtain ⟨bad, h1, h2, h3⟩ := ih ⟨b, hbr, hbf⟩
        exact ⟨bad, by simp [findBadAttr, hk, h1],
          List.mem_cons_of_mem _ h2, h3⟩
    · have hkf : hasKey a mapping = false := by simpa using hk
      exact ⟨a, by simp [findBadAttr, hkf], List.mem_cons_self a rest, hkf⟩

/-- Claim C2 (code bug): the guard of `User.list` is `elif max <= 999`, so a
negative `max` slips past the validation and one `GET /users` request with
`$top = max` is issued (after which the remap loop fails with an
AttributeError on any non-empty response, since this branch kept the raw
response dict), although the raised message itself documents the intended
range 0..999; only `max > 999` is rejected with zero requests. -/
theorem c2_max_validation (mapping : List (String × String))
    (customs : List String) (srv : ListServer) :
    (listUsers mapping customs (-1) [] srv).1 = [Req.usersPage (-1)] ∧
    listUsers mapping customs 1500 [] srv =
      ([], Except.error "max value should be between 0 and 999") ∧
    ∀ r rs, srv.singlePage (-1) = r :: rs →
      (listUsers mapping customs (-1) [] srv).2 =
        Except.error "AttributeError: str object has no attribute items" := by
  refine ⟨?_, ?_, ?_⟩
  · norm_num [listUsers, findBadAttr]
  · norm_num [listUsers, findBadAttr]
  · intro r rs hsp
    norm_num [listUsers, findBadAttr, hsp]

/-- A bounded-branch response object with one field, as the Graph API would
return. -/
def c2Server : ListServer :=
  ⟨[], [], fun _ => [("odata.context", Value.vStr "ctx")]⟩

/-- Claim C2 (witness): at `max = -1` one request is issued and the call then
fails after the request on the non-empty raw response. -/
theorem c2_max_validation_witness :
    (listUsers [] [] (-1) [] c2Server).1 = [Req.usersPage (-1)] ∧
    (listUsers [] [] (-1) [] c2Server).2 =
      Except.error "AttributeError: str object has no attribute items" :=
  ⟨(c2_max_validation [] [] c2Server).1,
   (c2_max_validation [] [] c2Server).2.2 ("odata.context", Value.vStr "ctx")
     [] rfl⟩

/-- Claim C4 (confirmed): when `include_attributes` contains a name that is
not a key of the mapping, `User.list` raises the `ValueError` whose message
names the comma-joined list of all allowed attribute names, and the issued
request list is empty. -/
theorem c4_unknown_attribute (mapping : List (String × String))
    (customs : List String) (maxN : Int) (attrs : List String)
    (srv : ListServer)
    (h : ∃ a, a ∈ attrs ∧ hasKey a mapping = false) :
    ∃ bad, bad ∈ attrs ∧ hasKey bad mapping = false ∧
      listUsers mapping customs maxN attrs srv =
        ([], Except.error (bad ++ " is not a known attribute. Only " ++
          String.intercalate "," (keysOf mapping) ++ " are allowed")) := by
  obtain ⟨bad, h1, h2, h3⟩ := findBadAttr_some mapping attrs h
  exact ⟨bad, h2, h3, by simp [listUsers, h1, attrErrorMsg]⟩

def c4Mapping : List (String × String) := [("name", "extension_1_Name")]

def c4Server : ListServer := ⟨[], [], fun _ => []⟩

/-- Claim C4 (witness): `include_attributes = [unknownfield]` against a
one-entry mapping. -/
theorem c4_unknown_attribute_witness :
    (∃ a, a ∈ ["unknownfield"] ∧ hasKey a c4Mapping = false) ∧
    (∃ bad, bad ∈ ["unknownfield"] ∧ hasKey bad c4Mapping = false ∧
      listUsers c4Mapping [] 0 ["unknownfield"] c4Server =
        ([], Except.error (bad ++ " is not a known attribute. Only " ++
          String.intercalate "," (keysOf c4Mapping) ++ " are allowed"))) :=
  ⟨⟨"unknownfield", by decide, by decide⟩,
    c4_unknown_attribute c4Mapping [] 0 ["unknownfield"] c4Server
      ⟨"unknownfield", by decide, by decide⟩⟩

/-- Claim C5 (confirmed): with `max = 0` (and attribute names that pass the
validation) `User.list` issues the initial request with `$top` 999 followed
by one request per continuation link in order, and returns every page
accumulated in order; the result length is the sum of the page sizes. -/
theorem c5_paging (mapping : List (String × String)) (customs : List String)
    (attrs : List String) (srv : ListServer)
    (h : ∀ a ∈ attrs, hasKey a mapping = true) :
    listUsers mapping customs 0 attrs srv =
      (Req.usersPage 999 ::
        (List.range srv.morePages.length).map Req.nextLink,
       Except.ok ((srv.firstPage ++ srv.morePages.flatten).map
         (remapCustomer (reversedMapping mapping) customs))) ∧
    ∃ out, (listUsers mapping customs 0 attrs srv).2 = Except.ok out ∧
      out.length =
        srv.firstPage.length + (srv.morePages.map List.length).sum := by
  have hn : findBadAttr mapping attrs = none := findBadAttr_none mapping attrs h
  have heq : listUsers mapping customs 0 attrs srv =
      (Req.usersPage 999 ::
        (List.range srv.morePages.length).map Req.nextLink,
       Except.ok ((srv.firstPage ++ srv.morePages.flatten).map
         (remapCustomer (reversedMapping mapping) customs))) := by
    simp [listUsers, hn]
  refine ⟨heq, ⟨_, by rw [heq], ?_⟩⟩
  rw [List.length_map, List.length_append, List.length_flatten]

/-- Three pages of sizes 999, 999 and 42. -/
def c5Server : ListServer :=
  ⟨List.replicate 999 [], [List.replicate 999 [], List.replicate 42 []],
   fun _ => []⟩

/-- Claim C5 (witness): on the 999/999/42 server the accumulated result has
length 2040. -/
theorem c5_paging_witness :
    (∀ a ∈ ([] : List String), hasKey a ([] : List (String × String)) = true) ∧
    ∃ out, (listUsers [] [] 0 [] c5Server).2 = Except.ok out ∧
      out.length = 2040 := by
  refine ⟨by simp, ?_⟩
  obtain ⟨h1, out, h2, h3⟩ := c5_paging [] [] [] c5Server (by simp)
  refine ⟨out, h2, ?_⟩
  rw [h3]
  simp only [c5Server, List.length_replicate, List.map_cons, List.map_nil,
    List.sum_cons, List.sum_nil]
  norm_num

/-! ## Facts about the remap step of `User.list` -/

theorem alookup_mem {α : Type} (k : String) (m : List (String × α)) (v : α)
    (h : alookup k m = some v) : (k, v) ∈ m := by
  induction m with
  | nil => cases h
  | cons p rest ih =>
    obtain ⟨a, b⟩ := p
    by_cases hp : a = k
    · subst hp
      simp [alookup] at h
      subst h
      exact List.mem_cons_self _ _
    · rw [List.mem_cons]
      right
      apply ih
      simpa [alookup, hp] using h

theorem mem_alookup {α : Type} (k : String) (m : List (String × α)) (v : α)
    (hn : (keysOf m).Nodup) (h : (k, v) ∈ m) : alookup k m = some v := by
  induction m with
  | nil => cases h
  | cons p rest ih =>
    obtain ⟨a, b⟩ := p
    simp only [keysOf, List.map_cons, List.nodup_cons] at hn
    rcases List.mem_cons.mp h with he | hm
    · rw [Prod.ext_iff] at he
      obtain ⟨h1, h2⟩ := he
      subst h1
      subst h2
      simp [alookup]
    · have hak : ¬a = k := by
        intro he2
        subst he2
        exact hn.1 (List.mem_map_of_mem Prod.fst hm)
      simp only [alookup, if_neg hak]
      exact ih hn.2 hm

theorem alookup_isSome_of_mem_keys {α : Type} (k : String)
    (m : List (String × α)) (h : k ∈ keysOf m) :
    ∃ v, alookup k m = some v := by
  induction m with
  | nil => cases h
  | cons p rest ih =>
    obtain ⟨a, b⟩ := p
    by_cases ha : a = k
    · exact ⟨b, by simp [alookup, ha]⟩
    · simp only [alookup, if_neg ha]
      apply ih
      simp only [keysOf, List.map_cons, List.mem_cons] at h
      rcases h with he | hm
      · exact absurd he.symm ha
      · exact hm

/-- When the renamed keys are pairwise distinct, the dict-filling loop of
the remap step is a plain `map` over the record. -/
theorem remapCustomer_eq_map (rev : List (String × String))
    (customs : List String) (c : UserRecord)
    (h : (c.map (fun kv => remapKey rev customs kv.1)).Nodup) :
    remapCustomer rev customs c =
      c.map (fun kv => (remapKey rev customs kv.1, kv.2)) := by
  have hfr := foldl_dinsert_fresh (fun kv => remapKey rev customs kv.1)
    Prod.snd c [] h (fun x hx => rfl)
  simpa [remapCustomer] using hfr

/-- When the mapping values are pairwise distinct, the reversing dict
comprehension of line 193 is the pairwise swap of the mapping. -/
theorem reversedMapping_eq_swap (mapping : List (String × String))
    (hvm : (valsOf mapping).Nodup) :
    reversedMapping mapping = mapping.map (fun p => (p.2, p.1)) := by
  have hn : (mapping.map Prod.snd).Nodup := by simpa [valsOf] using hvm
  have hfr := foldl_dinsert_fresh Prod.snd Prod.fst mapping [] hn
    (fun x hx => rfl)
  simpa [reversedMapping] using hfr

/-- For an id that is a mapping value, `reversed_mapping` yields the display
name whose forward lookup returns the id again. -/
theorem rev_lookup_spec (mapping : List (String × String)) (k : String)
    (hkm : (keysOf mapping).Nodup) (hvm : (valsOf mapping).Nodup)
    (hkv : k ∈ valsOf mapping) :
    ∃ name, alookup k (reversedMapping mapping) = some name ∧
      (name, k) ∈ mapping ∧ alookup name mapping = some k := by
  have hrev := reversedMapping_eq_swap mapping hvm
  have hkeys : keysOf (reversedMapping mapping) = valsOf mapping := by
    rw [hrev]
    simp [keysOf, valsOf, List.map_map, Function.comp]
  obtain ⟨name, hname⟩ :=
    alookup_isSome_of_mem_keys k (reversedMapping mapping)
      (by rw [hkeys]; exact hkv)
  have hmem : (k, name) ∈ reversedMapping mapping :=
    alookup_mem k (reversedMapping mapping) name hname
  rw [hrev] at hmem
  obtain ⟨p, hp, he⟩ := List.mem_map.mp hmem
  obtain ⟨a, b⟩ := p
  rw [Prod.ext_iff] at he
  obtain ⟨h1, h2⟩ := he
  simp only at h1 h2
  subst h1
  subst h2
  exact ⟨a, hname, hp, mem_alookup a mapping b hkm hp⟩

/-- `remapKey` on a custom id that is a mapping value produces the display
name whose forward lookup returns the id. -/
theorem remapKey_spec (mapping : List (String × String))
    (customs : List String) (k : String)
    (hkm : (keysOf mapping).Nodup) (hvm : (valsOf mapping).Nodup)
    (hkc : k ∈ customs) (hkv : k ∈ valsOf mapping) :
    ∃ name, remapKey (reversedMapping mapping) customs k = name ∧
      (name, k) ∈ mapping ∧ alookup name mapping = some k := by
  obtain ⟨name, h1, h2, h3⟩ := rev_lookup_spec mapping k hkm hvm hkv
  exact ⟨name, by simp [remapKey, hkc, h1], h2, h3⟩


/-- Claim C8 (confirmed): for a record whose keys are custom ids appearing as
mapping values (with injective forward mapping, expressed as distinct mapping
keys and values), the remap step of `User.list` yields a record keyed by
display names with the values unchanged, and sending each resulting key back
through the forward name-to-id mapping reproduces the original id-keyed
record. -/
theorem c8_roundtrip (mapping : List (String × String))
    (customs : List String) (c : UserRecord)
    (hkm : (keysOf mapping).Nodup) (hvm : (valsOf mapping).Nodup)
    (hck : (keysOf c).Nodup)
    (hc : ∀ k ∈ keysOf c, k ∈ customs ∧ k ∈ valsOf mapping) :
    (∀ k ∈ keysOf (remapCustomer (reversedMapping mapping) customs c),
        k ∈ keysOf mapping) ∧
    valsOf (remapCustomer (reversedMapping mapping) customs c) = valsOf c ∧
    (remapCustomer (reversedMapping mapping) customs c).map
        (fun kv => ((alookup kv.1 mapping).getD kv.1, kv.2)) = c := by
  have hinj : ∀ k1 ∈ keysOf c, ∀ k2 ∈ keysOf c,
      remapKey (reversedMapping mapping) customs k1 =
        remapKey (reversedMapping mapping) customs k2 → k1 = k2 := by
    intro k1 h1 k2 h2 he
    obtain ⟨n1, hn1, hm1, hl1⟩ :=
      remapKey_spec mapping customs k1 hkm hvm (hc k1 h1).1 (hc k1 h1).2
    obtain ⟨n2, hn2, hm2, hl2⟩ :=
      remapKey_spec mapping customs k2 hkm hvm (hc k2 h2).1 (hc k2 h2).2
    rw [hn1, hn2] at he
    subst he
    rw [hl1] at hl2
    exact Option.some.inj hl2
  have hmapeq : c.map
        (fun kv => remapKey (reversedMapping mapping) customs kv.1) =
      (keysOf c).map (fun k => remapKey (reversedMapping mapping) customs k) := by
    simp only [keysOf, List.map_map]
    rfl
  have hnod : (c.map
      (fun kv => remapKey (reversedMapping mapping) customs kv.1)).Nodup := by
    rw [hmapeq]
    exact List.Nodup.map_on hinj hck
  have hmapc := remapCustomer_eq_map (reversedMapping mapping) customs c hnod
  refine ⟨?_, ?_, ?_⟩
  · intro k hk2
    rw [hmapc] at hk2
    simp only [keysOf, List.map_map, List.mem_map, Function.comp] at hk2
    obtain ⟨kv, hkv, hke⟩ := hk2
    have hk1 : kv.1 ∈ keysOf c := List.mem_map_of_mem Prod.fst hkv
    obtain ⟨n, hn, hm, hl⟩ :=
      remapKey_spec mapping customs kv.1 hkm hvm (hc kv.1 hk1).1 (hc kv.1 hk1).2
    rw [hn] at hke
    rw [← hke]
    exact List.mem_map_of_mem Prod.fst hm
  · rw [hmapc]
    simp only [valsOf, List.map_map]
    rfl
  · rw [hmapc, List.map_map]
    have hid : ∀ kv ∈ c,
        ((fun kv => ((alookup kv.1 mapping).getD kv.1, kv.2)) ∘
          (fun kv => (remapKey (reversedMapping mapping) customs kv.1, kv.2)))
          kv = id kv := by
      intro kv hkv
      have hk1 : kv.1 ∈ keysOf c := List.mem_map_of_mem Prod.fst hkv
      obtain ⟨n, hn, hm, hl⟩ :=
        remapKey_spec mapping customs kv.1 hkm hvm (hc kv.1 hk1).1
          (hc kv.1 hk1).2
      simp only [Function.comp, id]
      rw [hn, hl]
      simp
    rw [List.map_congr_left hid, List.map_id]

def c8Mapping : List (String × String) :=
  [("nickname", "extension_1_Nickname"), ("shoesize", "extension_1_ShoeSize")]

def c8Customs : List String :=
  ["extension_1_Nickname", "extension_1_ShoeSize"]

def c8Input : UserRecord :=
  [("extension_1_Nickname", Value.vStr "Bob"),
   ("extension_1_ShoeSize", Value.vStr "42")]

/-- Claim C8 (witness): the round trip evaluated on a concrete two-attribute
mapping and record. -/
theorem c8_roundtrip_witness :
    ((keysOf c8Mapping).Nodup ∧ (valsOf c8Mapping).Nodup ∧
     (keysOf c8Input).Nodup ∧
     ∀ k ∈ keysOf c8Input, k ∈ c8Customs ∧ k ∈ valsOf c8Mapping) ∧
    ((∀ k ∈ keysOf (remapCustomer (reversedMapping c8Mapping) c8Customs c8Input),
        k ∈ keysOf c8Mapping) ∧
     valsOf (remapCustomer (reversedMapping c8Mapping) c8Customs c8Input) =
        valsOf c8Input ∧
     (remapCustomer (reversedMapping c8Mapping) c8Customs c8Input).map
        (fun kv => ((alookup kv.1 c8Mapping).getD kv.1, kv.2)) = c8Input) :=
  ⟨⟨by decide, by decide, by decide, by decide⟩,
    c8_roundtrip c8Mapping c8Customs c8Input (by decide) (by decide)
      (by decide) (by decide)⟩

/-- Claim C10 (counterexample): renaming a custom key does introduce a key
that was absent from the input record, so the no-new-keys conjunct of the
claim fails as stated. -/
theorem c10_counterexample :
    "name" ∈ keysOf (remapCustomer [("extension_1_Name", "name")]
        ["extension_1_Name"] [("extension_1_Name", Value.vStr "x")]) ∧
    ¬"name" ∈ keysOf ([("extension_1_Name", Value.vStr "x")] : UserRecord) := by
  decide

/-- Claim C10 (amended): provided the renamed keys collide with nothing, the
remap step is exactly the per-field key renaming: custom keys are replaced by
their reverse-mapping name, every field whose key is not custom is kept
verbatim, the values are preserved in order, and no key beyond the renamed
ones appears. -/
theorem c10_amended (rev : List (String × String)) (customs : List String)
    (c : UserRecord)
    (h : (c.map (fun kv => remapKey rev customs kv.1)).Nodup) :
    remapCustomer rev customs c =
      c.map (fun kv => (remapKey rev customs kv.1, kv.2)) ∧
    (∀ kv ∈ c, kv.1 ∉ customs → kv ∈ remapCustomer rev customs c) ∧
    valsOf (remapCustomer rev customs c) = valsOf c := by
  have hmapc := remapCustomer_eq_map rev customs c h
  refine ⟨hmapc, ?_, ?_⟩
  · intro kv hkv hnc
    rw [hmapc]
    exact List.mem_map.mpr ⟨kv, hkv, by simp [remapKey, hnc]⟩
  · rw [hmapc]
    simp only [valsOf, List.map_map]
    rfl

def c10Rev : List (String × String) := [("extension_1_Name", "name")]

def c10Customs : List String := ["extension_1_Name"]

def c10Input : UserRecord :=
  [("extension_1_Name", Value.vStr "x"), ("mail", Value.vStr "m")]

/-- Claim C10 (witness): the amended statement on a record with one custom
and one plain field. -/
theorem c10_amended_witness :
    (c10Input.map (fun kv => remapKey c10Rev c10Customs kv.1)).Nodup ∧
    (remapCustomer c10Rev c10Customs c10Input =
        c10Input.map (fun kv => (remapKey c10Rev c10Customs kv.1, kv.2)) ∧
     (∀ kv ∈ c10Input, kv.1 ∉ c10Customs →
        kv ∈ remapCustomer c10Rev c10Customs c10Input) ∧
     valsOf (remapCustomer c10Rev c10Customs c10Input) = valsOf c10Input) :=
  ⟨by decide, c10_amended c10Rev c10Customs c10Input (by decide)⟩

/-! ## Facts about `User.profile` -/

theorem foldl_dremove_alookup {α : Type} (ks : List String)
    (b : List (String × α)) (k : String) :
    alookup k (ks.foldl (fun acc u => dremove acc u) b) =
      if k ∈ ks then none else alookup k b := by
  induction ks generalizing b with
  | nil => simp
  | cons u rest ih =>
    rw [List.foldl_cons, ih (dremove b u)]
    by_cases hk : k ∈ rest
    · simp [hk]
    · by_cases hku : k = u
      · subst hku
        simp [hk, alookup_dremove_self]
      · simp [hk, hku, alookup_dremove_ne b k u hku]

theorem profileBase_lookup (mapping : List (String × String))
    (graph : UserRecord) (name id : String)
    (hkm : (keysOf mapping).Nodup) (hm : (name, id) ∈ mapping) :
    alookup name (profileBase mapping graph) =
      some ((alookup id graph).getD Value.vNull) := by
  have hf := foldl_dinsert_found Prod.fst
    (fun p => (alookup p.2 graph).getD Value.vNull) mapping (name, id) []
    (by simpa [keysOf] using hkm) hm
  simpa [profileBase] using hf

/-- Claim C6 (counterexample): `jobTitle` is both a possible mapping key (a
builtIn user-flow attribute is identity-mapped) and a denylisted attribute,
so the profile result lacks a key the mapping table has, contradicting the
claim that every mapping-table attribute is present. -/
theorem c6_counterexample :
    ("jobTitle", "jobTitle") ∈
      ([("jobTitle", "jobTitle")] : List (String × String)) ∧
    alookup "jobTitle" (profileUser [("jobTitle", "jobTitle")] []) = none := by
  constructor
  · decide
  · rw [profileUser, foldl_dremove_alookup]
    simp [unwanted_attributes]

/-- Claim C6 (amended): for every attribute name of the mapping table that is
not denylisted, the profile result has the key, carrying exactly the value
the server returned for the mapped id and null when the server omitted it;
and no denylisted key ever appears in the result. -/
theorem c6_amended (mapping : List (String × String)) (graph : UserRecord)
    (name id : String) (hkm : (keysOf mapping).Nodup)
    (hm : (name, id) ∈ mapping) (hu : name ∉ unwanted_attributes) :
    alookup name (profileUser mapping graph) =
      some ((alookup id graph).getD Value.vNull) ∧
    ∀ u ∈ unwanted_attributes, alookup u (profileUser mapping graph) = none := by
  constructor
  · rw [profileUser, foldl_dremove_alookup, if_neg hu]
    exact profileBase_lookup mapping graph name id hkm hm
  · intro u hup
    rw [profileUser, foldl_dremove_alookup, if_pos hup]

def c6Mapping : List (String × String) := [("nickname", "extension_1_Nickname")]

/-- Claim C6 (witness): the amended statement on a one-attribute mapping and
an empty server response (the value is filled with null). -/
theorem c6_amended_witness :
    ((keysOf c6Mapping).Nodup ∧
     ("nickname", "extension_1_Nickname") ∈ c6Mapping ∧
     "nickname" ∉ unwanted_attributes) ∧
    (alookup "nickname" (profileUser c6Mapping []) =
        some ((alookup "extension_1_Nickname" ([] : UserRecord)).getD
          Value.vNull) ∧
     ∀ u ∈ unwanted_attributes, alookup u (profileUser c6Mapping []) = none) :=
  ⟨⟨by decide, by decide, by decide⟩,
    c6_amended c6Mapping [] "nickname" "extension_1_Nickname" (by decide)
      (by decide) (by decide)⟩

/-! ## Facts about `User.create` and `User.update` -/

/-- Claim C7 (confirmed): for inputs carrying email and password, the posted
payload has `accountEnabled` true, the password-expiration-disabling policy,
the password profile with the given password and the force-change flag set
false, `mail` set to the email, and an identities array with exactly one
entry whose issuer is the configured tenant name and whose issuerAssignedId
is the email; when the input has no displayName, it defaults to the given
name and surname joined by a space. -/
theorem c7_create_payload (mapping : List (String × String))
    (tenant : String) (user : UserRecord) (ev pv : Value) (g s : String)
    (he : alookup "email" user = some ev)
    (hp : alookup "password" user = some pv) :
    ∃ p, createPayload mapping tenant user = Except.ok p ∧
      alookup "accountEnabled" p = some (Value.vBool true) ∧
      alookup "passwordPolicies" p =
        some (Value.vStr "DisablePasswordExpiration") ∧
      alookup "passwordProfile" p = some (Value.vObj [("password", pv),
        ("forceChangePasswordNextSignIn", Value.vBool false)]) ∧
      alookup "identities" p = some (Value.vArr [Value.vObj
        [("issuer", Value.vStr tenant), ("issuerAssignedId", ev),
         ("signInType", Value.vStr "emailAddress")]]) ∧
      alookup "mail" p = some ev ∧
      (alookup "displayName" user = none →
        alookup "givenName" user = some (Value.vStr g) →
        alookup "surname" user = some (Value.vStr s) →
        alookup "displayName" p = some (Value.vStr (g ++ " " ++ s))) := by
  refine ⟨createPayloadFields mapping tenant user ev pv,
    ?_, ?_, ?_, ?_, ?_, ?_, ?_⟩
  · simp [createPayload, he, hp]
  · simp only [createPayloadFields]
    rw [alookup_dinsert_ne _ _ _ _ (by decide),
      alookup_dinsert_ne _ _ _ _ (by decide),
      alookup_dinsert_ne _ _ _ _ (by decide), alookup_dinsert_self]
  · simp only [createPayloadFields]
    rw [alookup_dinsert_ne _ _ _ _ (by decide),
      alookup_dinsert_ne _ _ _ _ (by decide), alookup_dinsert_self]
  · simp only [createPayloadFields]
    rw [alookup_dinsert_ne _ _ _ _ (by decide), alookup_dinsert_self]
  · simp only [createPayloadFields]
    rw [alookup_dinsert_self]
  · simp only [createPayloadFields]
    rw [alookup_dinsert_ne _ _ _ _ (by decide),
      alookup_dinsert_ne _ _ _ _ (by decide),
      alookup_dinsert_ne _ _ _ _ (by decide),
      alookup_dinsert_ne _ _ _ _ (by decide), alookup_dinsert_self]
  · intro hd hg hs
    simp only [createPayloadFields]
    rw [alookup_dinsert_ne _ _ _ _ (by decide),
      alookup_dinsert_ne _ _ _ _ (by decide),
      alookup_dinsert_ne _ _ _ _ (by decide),
      alookup_dinsert_ne _ _ _ _ (by decide),
      alookup_dinsert_ne _ _ _ _ (by decide), alookup_dinsert_self]
    simp [hd, defaultDisplayName, hg, hs, pyStr]

def c7Mapping : List (String × String) := [("name", "extension_1_Name")]

def c7User : UserRecord :=
  [("email", Value.vStr "jane@tenant.example"),
   ("password", Value.vStr "pw-1"),
   ("givenName", Value.vStr "Jane"), ("surname", Value.vStr "Doe")]

/-- Claim C7 (witness): the payload facts on a concrete input without a
displayName. -/
theorem c7_create_payload_witness :
    (alookup "email" c7User = some (Value.vStr "jane@tenant.example") ∧
     alookup "password" c7User = some (Value.vStr "pw-1")) ∧
    (∃ p, createPayload c7Mapping "tenant.example" c7User = Except.ok p ∧
      alookup "accountEnabled" p = some (Value.vBool true) ∧
      alookup "passwordPolicies" p =
        some (Value.vStr "DisablePasswordExpiration") ∧
      alookup "passwordProfile" p =
        some (Value.vObj [("password", Value.vStr "pw-1"),
          ("forceChangePasswordNextSignIn", Value.vBool false)]) ∧
      alookup "identities" p = some (Value.vArr [Value.vObj
        [("issuer", Value.vStr "tenant.example"),
         ("issuerAssignedId", Value.vStr "jane@tenant.example"),
         ("signInType", Value.vStr "emailAddress")]]) ∧
      alookup "mail" p = some (Value.vStr "jane@tenant.example") ∧
      (alookup "displayName" c7User = none →
        alookup "givenName" c7User = some (Value.vStr "Jane") →
        alookup "surname" c7User = some (Value.vStr "Doe") →
        alookup "displayName" p = some (Value.vStr ("Jane" ++ " " ++ "Doe")))) :=
  ⟨⟨rfl, rfl⟩,
    c7_create_payload c7Mapping "tenant.example" c7User
      (Value.vStr "jane@tenant.example") (Value.vStr "pw-1") "Jane" "Doe"
      rfl rfl⟩

theorem foldl_condInsert_hasKey (mapping : List (String × String))
    (user : UserRecord) (j : String) :
    ∀ acc : UserRecord,
      hasKey j (mapping.foldl
        (fun acc p =>
          if hasKey p.1 user then
            dinsert acc p.2 ((alookup p.1 user).getD Value.vNull)
          else acc) acc) = true →
      hasKey j acc = true ∨ j ∈ valsOf mapping := by
  induction mapping with
  | nil =>
    intro acc hx
    exact Or.inl hx
  | cons p rest ih =>
    intro acc hx
    rw [List.foldl_cons] at hx
    rcases ih _ hx with hacc | hv
    · by_cases hc : hasKey p.1 user = true
      · rw [if_pos hc] at hacc
        rcases (hasKey_dinsert acc p.2 j _).mp hacc with he | hacc2
        · refine Or.inr ?_
          rw [he]
          exact List.mem_map_of_mem Prod.snd (List.mem_cons_self p rest)
        · exact Or.inl hacc2
      · rw [if_neg hc] at hacc
        exact Or.inl hacc
    · refine Or.inr ?_
      simp only [valsOf, List.map_cons]
      exact List.mem_cons_of_mem _ hv

theorem mapKnownFields_hasKey (mapping : List (String × String))
    (user : UserRecord) (j : String)
    (h : hasKey j (mapKnownFields mapping user) = true) :
    j ∈ valsOf mapping := by
  rcases foldl_condInsert_hasKey mapping user j []
      (by simpa [mapKnownFields] using h) with hcon | hv
  · simp [hasKey, alookup] at hcon
  · exact hv

def c3Mapping : List (String × String) := [("name", "extension_1_Name")]

def c3User : UserRecord :=
  [("email", Value.vStr "jane@b.example"), ("password", Value.vStr "pw-1"),
   ("unknowncustom", Value.vStr "x")]

/-- Claim C3 (counterexample): `unknowncustom` is not a key of the mapping,
yet create (the input carries the required email and password, so no
KeyError interferes) and update both still issue their single HTTP request:
neither validates input attribute names, so the operation does not fail
before the network call. -/
theorem c3_counterexample :
    hasKey "unknowncustom" c3Mapping = false ∧
    hasKey "unknowncustom" c3User = true ∧
    (createUser c3Mapping "tenant.example" c3User).1 = 1 ∧
    (updateUser c3Mapping "uid-1" c3User).1 = 1 ∧
    ¬(createUser c3Mapping "tenant.example" c3User).1 = 0 :=
  ⟨by decide, by decide, rfl, rfl, by decide⟩

/-- Claim C3 (amended): create and update perform no validation of input
attribute names.  Unknown names are silently dropped: every key of the
posted or patched payload is either a mapping value (a Graph id) or one of
the fixed fields create always sets.  Update always issues its PATCH; create
issues its POST whenever the required email and password keys are present
(it fails with a KeyError before the request only for a missing email or
password, never because of an unknown attribute name). -/
theorem c3_amended (mapping : List (String × String)) (tenant uid : String)
    (user : UserRecord) (k j : String) (ev pv : Value)
    (he : alookup "email" user = some ev)
    (hp : alookup "password" user = some pv)
    (hj : hasKey j (updatePayload mapping user) = true) :
    (createUser mapping tenant user).1 = 1 ∧
    (updateUser mapping uid user).1 = 1 ∧
    (∀ payload, createPayload mapping tenant user = Except.ok payload →
      hasKey k payload = true → (k ∈ valsOf mapping ∨ k ∈ createFixedKeys)) ∧
    j ∈ valsOf mapping := by
  refine ⟨?_, rfl, ?_,
    mapKnownFields_hasKey mapping user j (by simpa [updatePayload] using hj)⟩
  · simp [createUser, createPayload, he, hp]
  · intro payload hpl hk
    simp only [createPayload, he, hp] at hpl
    rw [← Except.ok.inj hpl] at hk
    simp only [createPayloadFields] at hk
    rcases (hasKey_dinsert _ _ _ _).mp hk with heq | hk5
    · exact Or.inr (by rw [heq]; decide)
    rcases (hasKey_dinsert _ _ _ _).mp hk5 with heq | hk4
    · exact Or.inr (by rw [heq]; decide)
    rcases (hasKey_dinsert _ _ _ _).mp hk4 with heq | hk3
    · exact Or.inr (by rw [heq]; decide)
    rcases (hasKey_dinsert _ _ _ _).mp hk3 with heq | hk2
    · exact Or.inr (by rw [heq]; decide)
    rcases (hasKey_dinsert _ _ _ _).mp hk2 with heq | hk1
    · exact Or.inr (by rw [heq]; decide)
    rcases (hasKey_dinsert _ _ _ _).mp hk1 with heq | hk0
    · exact Or.inr (by rw [heq]; decide)
    exact Or.inl (mapKnownFields_hasKey mapping user k hk0)

def c3wMapping : List (String × String) := [("name", "extension_1_Name")]

def c3wUser : UserRecord :=
  [("name", Value.vStr "Jane"), ("email", Value.vStr "j@b.example"),
   ("password", Value.vStr "pw-1")]

/-- Claim C3 (witness): the amended statement at the translated key of a
known custom attribute, for an input carrying email and password. -/
theorem c3_amended_witness :
    (alookup "email" c3wUser = some (Value.vStr "j@b.example") ∧
     alookup "password" c3wUser = some (Value.vStr "pw-1") ∧
     hasKey "extension_1_Name" (updatePayload c3wMapping c3wUser) = true) ∧
    ((createUser c3wMapping "tenant" c3wUser).1 = 1 ∧
     (updateUser c3wMapping "uid-1" c3wUser).1 = 1 ∧
     (∀ payload, createPayload c3wMapping "tenant" c3wUser =
          Except.ok payload →
        hasKey "extension_1_Name" payload = true →
        ("extension_1_Name" ∈ valsOf c3wMapping ∨
          "extension_1_Name" ∈ createFixedKeys)) ∧
     "extension_1_Name" ∈ valsOf c3wMapping) :=
  ⟨⟨rfl, rfl, by decide⟩,
    c3_amended c3wMapping "tenant" "uid-1" c3wUser "extension_1_Name"
      "extension_1_Name" (Value.vStr "j@b.example") (Value.vStr "pw-1")
      rfl rfl (by decide)⟩
